import Mathlib

/-!
Verification of the exact-correlation synthetic data generator of the
StatsLearning repository.

The numeric core of the repository lives in the stimulus files
`CorrelationSlider.tsx`, `CorrelationPlot.tsx`, `CorrelationImages.tsx`,
`CorrelationExplorer.tsx`, `MixtureRHalf.tsx`, `FivePatternsSuite.tsx`
and an interactive point-placement stimulus.  We give a shallow embedding
of that core over the real numbers: JavaScript `number` arithmetic is
modelled by `ℝ`, arrays of length `n` by `Fin n → ℝ`, and a
NaN-contaminated result by `Option`.  Pure integer PRNG state arithmetic
(`(1664525*s + 1013904223) >>> 0`) is modelled exactly on `ℕ` with
`% 2^32`.

Conventions used throughout:
* JavaScript `x || y` on numbers is `if x = 0 then y else x`.
* JavaScript `c ? a : b` is `if c then a else b`.
* `Math.max`/`Math.min` are `max`/`min`.
* Division by zero yields `0` in Lean while JS yields `±Infinity`/`NaN`;
  wherever a divisor can actually be zero on the source path under study,
  the definition models the JS behaviour explicitly (see
  `generateCorrelationSlopeDataFromBase` and
  `generateCorrelatedDataFromBase`).
-/

namespace StatsStudy

/-! ## Seeded PRNG (`SeededRandom` in CorrelationSlider/CorrelationPlot/
CorrelationImages; the constructor masks the seed with `>>> 0` and
`random()` is the LCG step `s' = (1664525*s + 1013904223) >>> 0`,
returning `s' / 2^32`). -/

/-- One LCG step on the 32-bit state: `(1664525*s + 1013904223) >>> 0`. -/
def lcgNext (s : ℕ) : ℕ := (1664525 * s + 1013904223) % 4294967296

/-- State after the `while (u1 === 0)` resampling loop of `boxMuller`:
the uniform output of `random()` is `lcgNext s / 2^32`, which is zero
exactly when the new state is zero; from state `0` the next output is
`1013904223 / 2^32 ≠ 0`, so the loop runs at most twice. -/
def u1State (s : ℕ) : ℕ := if lcgNext s = 0 then lcgNext (lcgNext s) else lcgNext s

/-- PRNG state after one full `boxMuller` call (the `u1` loop plus the
single `u2` draw). -/
def bmStep (s : ℕ) : ℕ := lcgNext (u1State s)

/-- PRNG state after `k` consecutive `boxMuller` calls. -/
def bmState (s : ℕ) : ℕ → ℕ
  | 0 => s
  | k + 1 => bmStep (bmState s k)

noncomputable section

/-- The `z1` output of `boxMuller` run from PRNG state `s`:
`R cos(2π u2)` with `R = sqrt(-2 ln u1)`. -/
def bmZ1 (s : ℕ) : ℝ :=
  Real.sqrt (-2 * Real.log ((u1State s : ℝ) / 4294967296)) *
    Real.cos (2 * Real.pi * ((bmStep s : ℝ) / 4294967296))

/-- The `z2` output of `boxMuller` run from PRNG state `s`:
`R sin(2π u2)`. -/
def bmZ2 (s : ℕ) : ℝ :=
  Real.sqrt (-2 * Real.log ((u1State s : ℝ) / 4294967296)) *
    Real.sin (2 * Real.pi * ((bmStep s : ℝ) / 4294967296))

/-! ## Shared numeric helpers (`mean`, `sd`, `zscore` are identical in
CorrelationSlider.tsx, CorrelationPlot.tsx, CorrelationImages.tsx,
MixtureRHalf.tsx and the exact-r stimulus of `part_007`; `clamp` is from
the interactive point-placement stimulus `part_005`). -/

/-- `mean`: `a.reduce((s,v) => s+v, 0) / a.length`. -/
def mean {n : ℕ} (a : Fin n → ℝ) : ℝ := (∑ i, a i) / n

/-- Sample variance with the `Math.max(1, a.length - 1)` denominator used
inside `sd`. -/
def sampleVar {n : ℕ} (a : Fin n → ℝ) : ℝ :=
  (∑ i, (a i - mean a) ^ 2) / ((max 1 (n - 1) : ℕ) : ℝ)

/-- `sd`: `Math.sqrt(Math.max(v, 1e-12))`. -/
def sd {n : ℕ} (a : Fin n → ℝ) : ℝ := Real.sqrt (max (sampleVar a) 1e-12)

/-- `zscore`: `a.map(v => (v - m) / s)` with `s = sd(a) || 1`. -/
def zscore {n : ℕ} (a : Fin n → ℝ) : Fin n → ℝ :=
  fun i => (a i - mean a) / (if sd a = 0 then 1 else sd a)

/-- `clamp(v, a, b) = Math.max(a, Math.min(b, v))`. -/
def clamp (v a b : ℝ) : ℝ := max a (min b v)

/-- `Math.sign` (used in the spec's sign-identity property). -/
def sign (x : ℝ) : ℝ := if 0 < x then 1 else if x < 0 then -1 else 0

/-! ## Base-vector builder (`makeBase`, identical in
CorrelationSlider.tsx lines 30-39, CorrelationPlot.tsx lines 75-84,
CorrelationImages.tsx lines 126-138 and `part_007` lines 98-111).
`makeBaseFrom` is the deterministic linear algebra parametrized by the
raw Gaussian draws; `makeBase` plugs in the Box-Muller/LCG streams. -/

/-- The linear-algebra part of `makeBase`: standardize `X0`, remove the
least-squares projection of `Z0` on the standardized `Xs` (denominator
guarded by `|| 1e-12`), standardize the residual. -/
def makeBaseFrom {n : ℕ} (X0 Z0 : Fin n → ℝ) : (Fin n → ℝ) × (Fin n → ℝ) :=
  let Xs := zscore X0
  let denom := if (∑ j, Xs j * Xs j) = 0 then 1e-12 else (∑ j, Xs j * Xs j)
  let beta := (∑ j, Xs j * Z0 j) / denom
  let Zperp := zscore (fun i => Z0 i - beta * Xs i)
  (Xs, Zperp)

/-- `makeBase(n, seed)`: `X0` takes `z1` of the first `n` `boxMuller`
calls, `Z0` takes `z2` of the following `n` calls, on the stream seeded
with `seed >>> 0`. -/
def makeBase (n : ℕ) (seed : ℕ) : (Fin n → ℝ) × (Fin n → ℝ) :=
  makeBaseFrom (fun i => bmZ1 (bmState (seed % 4294967296) i))
    (fun i => bmZ2 (bmState (seed % 4294967296) (n + i)))

/-! ## Pearson correlation utilities. -/

/-- `computePearsonR` from CorrelationExplorer.tsx lines 80-91: null for
fewer than two points or a zero denominator.  (The `d3.mean === undefined`
guard of the source only fires on empty input, which is already covered
by the `length < 2` test.) -/
def computePearsonR {n : ℕ} (data : Fin n → ℝ × ℝ) : Option ℝ :=
  if n < 2 then none
  else
    let xs := fun i => (data i).1
    let ys := fun i => (data i).2
    let num := ∑ i, (xs i - mean xs) * (ys i - mean ys)
    let den := Real.sqrt (∑ i, (xs i - mean xs) ^ 2) *
      Real.sqrt (∑ i, (ys i - mean ys) ^ 2)
    if den = 0 then none else some (num / den)

/-- `pearsonR` from FivePatternsSuite.tsx lines 47-54 (same algorithm as
`computePearsonR`). -/
def pearsonR {n : ℕ} (data : Fin n → ℝ × ℝ) : Option ℝ :=
  if n < 2 then none
  else
    let xs := fun i => (data i).1
    let ys := fun i => (data i).2
    let num := ∑ i, (xs i - mean xs) * (ys i - mean ys)
    let den := Real.sqrt (∑ i, (xs i - mean xs) ^ 2) *
      Real.sqrt (∑ i, (ys i - mean ys) ^ 2)
    if den = 0 then none else some (num / den)

/-- `pearson` from MixtureRHalf.tsx lines 25-29: sum of standardized
cross-products divided by `x.length` (with the `sd(x) || 1` guards). -/
def MixtureRHalf.pearson {n : ℕ} (x y : Fin n → ℝ) : ℝ :=
  (∑ i, ((x i - mean x) / (if sd x = 0 then 1 else sd x)) *
    ((y i - mean y) / (if sd y = 0 then 1 else sd y))) / n

/-- `variance` from the point-placement stimulus `part_005`:
`n > 1 ? Σ(v-m)²/(n-1) : 0`. -/
def Part005.variance {n : ℕ} (a : Fin n → ℝ) : ℝ :=
  if 1 < n then (∑ i, (a i - mean a) ^ 2) / ((n : ℝ) - 1) else 0

/-- `sd` from `part_005`: `Math.sqrt(Math.max(variance(a), 0))`. -/
def Part005.sd {n : ℕ} (a : Fin n → ℝ) : ℝ :=
  Real.sqrt (max (Part005.variance a) 0)

/-- `pearsonR` from `part_005` lines 15-25: null for fewer than two
points or zero standard deviation on either axis, otherwise the
covariance-based coefficient clamped to `[-1, 1]`. -/
def Part005.pearsonR {n : ℕ} (points : Fin n → ℝ × ℝ) : Option ℝ :=
  if n < 2 then none
  else
    let xs := fun i => (points i).1
    let ys := fun i => (points i).2
    if Part005.sd xs = 0 ∨ Part005.sd ys = 0 then none
    else
      let cov := (∑ i, (xs i - mean xs) * (ys i - mean ys)) / ((n : ℝ) - 1)
      some (clamp (cov / (Part005.sd xs * Part005.sd ys)) (-1) 1)

/-! ## Generators. -/

/-- The ordinary-least-squares slope recomputation of
CorrelationPlot.tsx lines 121-125 / 133-137 (`denVar > 0 ? numCov/denVar : 0`). -/
def olsSlope {n : ℕ} (Xp Yp : Fin n → ℝ) : ℝ :=
  let numCov := ∑ i, (Xp i - mean Xp) * (Yp i - mean Yp)
  let denVar := ∑ i, (Xp i - mean Xp) ^ 2
  if 0 < denVar then numCov / denVar else 0

/-- `generateCorrelationData` of CorrelationSlider.tsx lines 41-66,
parametrized by the base vectors produced by `makeBase`. -/
def generateCorrelationDataFromBase {n : ℕ} (r : ℝ) (Xs Zperp : Fin n → ℝ)
    (xRange yRange : ℝ × ℝ) : Fin n → ℝ × ℝ :=
  let rr := clamp r (-0.999) 0.999
  let Y0 := fun i => rr * Xs i + Real.sqrt (1 - rr * rr) * Zperp i
  let cx := 0.5 * (xRange.1 + xRange.2)
  let cy := 0.5 * (yRange.1 + yRange.2)
  let xSpan := max 1e-9 (xRange.2 - xRange.1)
  let sx0 := sd Xs
  let sy0 := sd Y0
  let halfX := 0.5 * xSpan * (1 - 0.05)
  let a := max 1e-9 (halfX / (2.5 * sx0) * 0.95)
  let scaleY := a * (if sy0 = 0 then 1 else sy0)
  fun i => (cx + a * Xs i, cy + (Y0 i / (if sy0 = 0 then 1 else sy0)) * scaleY)

/-- `generateCorrelationData(r, n, seed, xRange, yRange)`. -/
def generateCorrelationData (r : ℝ) (n : ℕ) (seed : ℕ)
    (xRange yRange : ℝ × ℝ) : Fin n → ℝ × ℝ :=
  generateCorrelationDataFromBase r (makeBase n seed).1 (makeBase n seed).2
    xRange yRange

/-- Result record of the slope-aware generator. -/
structure SlopeResult (n : ℕ) where
  data : Fin n → ℝ × ℝ
  actualSlope : ℝ

/-- `generateCorrelationSlopeData` of CorrelationPlot.tsx lines 86-139
(identical in CorrelationImages.tsx lines 148-231), parametrized by the
base vectors.  `targetSlope = none` models the `null` / non-finite case.
In JS, when `sigmaThreshold*sx0*mAbsOverR` is `0` the quotient
`a_max_y` is `+Infinity` and `Math.min` picks `a_max_x`; the `if`
encodes exactly that. -/
def generateCorrelationSlopeDataFromBase {n : ℕ} (r : ℝ)
    (targetSlope : Option ℝ) (Xs Zperp : Fin n → ℝ)
    (xRange yRange : ℝ × ℝ) : SlopeResult n :=
  let rr := clamp r (-0.999) 0.999
  let rAbs := max |rr| 1e-6
  let Y0 := fun i => rr * Xs i + Real.sqrt (1 - rr * rr) * Zperp i
  let cx := 0.5 * (xRange.1 + xRange.2)
  let cy := 0.5 * (yRange.1 + yRange.2)
  let xSpan := max 1e-9 (xRange.2 - xRange.1)
  let ySpan := max 1e-9 (yRange.2 - yRange.1)
  let sx0 := sd Xs
  let sy0 := sd Y0
  let halfX := 0.5 * xSpan * (1 - 0.05)
  let halfY := 0.5 * ySpan * (1 - 0.05)
  match targetSlope with
  | some ts =>
      let mAbsOverR := |ts| / rAbs
      let aMaxX := halfX / (2.5 * sx0)
      let aPre := if 2.5 * sx0 * mAbsOverR = 0 then aMaxX
        else min aMaxX (halfY / (2.5 * sx0 * mAbsOverR))
      let a := max 1e-9 (aPre * 0.95)
      let desiredSy := mAbsOverR * a * sx0
      let scaleY := desiredSy / (if sy0 = 0 then 1 else sy0)
      let Xp := fun i => cx + a * Xs i
      let Yp := fun i => cy + scaleY * Y0 i
      ⟨fun i => (Xp i, Yp i), olsSlope Xp Yp⟩
  | none =>
      let a := max 1e-9 (halfX / (2.5 * sx0) * 0.95)
      let Xp := fun i => cx + a * Xs i
      let scaleY := a * (if sy0 = 0 then 1 else sy0)
      let Yp := fun i => cy + (Y0 i / (if sy0 = 0 then 1 else sy0)) * scaleY
      ⟨fun i => (Xp i, Yp i), olsSlope Xp Yp⟩

/-- `generateCorrelationSlopeData(r, targetSlope, n, seed, xRange, yRange)`. -/
def generateCorrelationSlopeData (r : ℝ) (targetSlope : Option ℝ)
    (n : ℕ) (seed : ℕ) (xRange yRange : ℝ × ℝ) : SlopeResult n :=
  generateCorrelationSlopeDataFromBase r targetSlope (makeBase n seed).1
    (makeBase n seed).2 xRange yRange

/-- `d3.variance`: sample variance with the `n - 1` denominator and no
floor (undefined on fewer than two values; such inputs do not occur on
the paths studied here). -/
def d3variance {n : ℕ} (a : Fin n → ℝ) : ℝ :=
  (∑ i, (a i - mean a) ^ 2) / ((n : ℝ) - 1)

/-- Minimum entry, `d3.extent` style (junk value `0` on empty input). -/
def fmin : {n : ℕ} → (Fin n → ℝ) → ℝ
  | 0, _ => 0
  | _ + 1, a => Finset.univ.inf' Finset.univ_nonempty a

/-- Maximum entry, `d3.extent` style (junk value `0` on empty input). -/
def fmax : {n : ℕ} → (Fin n → ℝ) → ℝ
  | 0, _ => 0
  | _ + 1, a => Finset.univ.sup' Finset.univ_nonempty a

/-- `d3.scaleLinear().domain([mn,mx]).range([0.5,9.5])` applied to `v`. -/
def scaleTo (v mn mx : ℝ) : ℝ := 0.5 + (v - mn) / (mx - mn) * (9.5 - 0.5)

/-- `generateCorrelatedData` of CorrelationExplorer.tsx lines 32-78,
parametrized by the cached base points (the source caches draws from
`d3.randomLcg(42)`, an external library generator).  The function applies
NO clamp to `targetCorrelation`: for `|r| > 1` the JS expression
`Math.sqrt(1 - r*r)` is NaN and contaminates every output y-coordinate;
we model the NaN-contaminated point set as `none`. -/
def generateCorrelatedDataFromBase {n : ℕ} (targetCorrelation : ℝ)
    (bx bY : Fin n → ℝ) : Option (Fin n → ℝ × ℝ) :=
  if 1 - targetCorrelation * targetCorrelation < 0 then none
  else
    let xC := fun i => bx i - mean bx
    let x := fun i => xC i / Real.sqrt (d3variance xC)
    let yC := fun i => bY i - mean bY
    let y := fun i => yC i / Real.sqrt (d3variance yC)
    let proj := (∑ i, x i * y i) / (∑ i, x i * x i)
    let yPerp := fun i => y i - proj * x i
    let yPerpC := fun i => yPerp i - mean yPerp
    let yHat := fun i => yPerpC i / Real.sqrt (d3variance yPerpC)
    let yCorr := fun i => targetCorrelation * x i +
      Real.sqrt (1 - targetCorrelation * targetCorrelation) * yHat i
    some fun i =>
      (scaleTo (x i) (fmin x) (fmax x), scaleTo (yCorr i) (fmin yCorr) (fmax yCorr))

/-! ## Basic facts about the helpers. -/

/-- The `1e-12` variance floor makes `sd` strictly positive on every
input, so the `|| 1` guards on `sd` never fire. -/
lemma sd_pos {n : ℕ} (a : Fin n → ℝ) : 0 < sd a := by
  have h : (0 : ℝ) < max (sampleVar a) 1e-12 :=
    lt_of_lt_of_le (by norm_num) (le_max_right _ _)
  exact Real.sqrt_pos.mpr h

lemma sd_guard {n : ℕ} (a : Fin n → ℝ) :
    (if sd a = 0 then (1 : ℝ) else sd a) = sd a :=
  if_neg (sd_pos a).ne'

lemma cast_n_pos {n : ℕ} (hn : 2 ≤ n) : (0 : ℝ) < n := by
  have : (2 : ℝ) ≤ n := by exact_mod_cast hn
  linarith

lemma cast_n_sub_one_pos {n : ℕ} (hn : 2 ≤ n) : (0 : ℝ) < (n : ℝ) - 1 := by
  have : (2 : ℝ) ≤ n := by exact_mod_cast hn
  linarith

lemma denom_cast {n : ℕ} (hn : 2 ≤ n) :
    ((max 1 (n - 1) : ℕ) : ℝ) = (n : ℝ) - 1 := by
  have h1 : max 1 (n - 1) = n - 1 := by omega
  rw [h1]
  have h2 : 1 ≤ n := by omega
  push_cast [Nat.cast_sub h2]
  ring

lemma mean_affine {n : ℕ} (hn : (n : ℝ) ≠ 0) (c t : ℝ) (a : Fin n → ℝ) :
    mean (fun i => c + t * a i) = c + t * mean a := by
  unfold mean
  rw [Finset.sum_add_distrib, Finset.sum_const, ← Finset.mul_sum]
  simp only [Finset.card_univ, Fintype.card_fin, nsmul_eq_mul]
  field_simp
  ring

lemma mean_lin2 {n : ℕ} (hn : (n : ℝ) ≠ 0) (s t : ℝ) (X Z : Fin n → ℝ) :
    mean (fun i => s * X i + t * Z i) = s * mean X + t * mean Z := by
  unfold mean
  rw [Finset.sum_add_distrib, ← Finset.mul_sum, ← Finset.mul_sum]
  field_simp

lemma sum_of_mean_zero {n : ℕ} {a : Fin n → ℝ} (hm : mean a = 0) :
    (∑ i, a i) = 0 := by
  rcases Nat.eq_zero_or_pos n with h | h
  · subst h; simp
  · have hn : (n : ℝ) ≠ 0 := by positivity
    unfold mean at hm
    field_simp at hm
    exact hm

lemma sum_sq_of_unitvar {n : ℕ} (hn : 2 ≤ n) {a : Fin n → ℝ}
    (hm : mean a = 0) (hv : sampleVar a = 1) :
    (∑ i, a i ^ 2) = (n : ℝ) - 1 := by
  unfold sampleVar at hv
  rw [hm, denom_cast hn] at hv
  simp only [sub_zero] at hv
  have hpos := cast_n_sub_one_pos hn
  field_simp at hv
  linarith

lemma clamp_bounds (v a b : ℝ) (hab : a ≤ b) :
    a ≤ clamp v a b ∧ clamp v a b ≤ b := by
  unfold clamp
  constructor
  · exact le_max_left _ _
  · exact max_le hab (min_le_left _ _)

lemma sign_of_pos {x : ℝ} (h : 0 < x) : sign x = 1 := by
  unfold sign; rw [if_pos h]

lemma sign_of_neg {x : ℝ} (h : x < 0) : sign x = -1 := by
  unfold sign; rw [if_neg (by linarith), if_pos h]

lemma sign_mul_pos {c : ℝ} (hc : 0 < c) (x : ℝ) : sign (c * x) = sign x := by
  rcases lt_trichotomy x 0 with h | h | h
  · rw [sign_of_neg h, sign_of_neg (mul_neg_of_pos_of_neg hc h)]
  · subst h; simp
  · rw [sign_of_pos h, sign_of_pos (mul_pos hc h)]

lemma sign_clamp {r : ℝ} (hr : r ≠ 0) :
    sign (clamp r (-0.999) 0.999) = sign r := by
  rcases lt_trichotomy r 0 with h | h | h
  · rw [sign_of_neg h]
    apply sign_of_neg
    unfold clamp
    have h1 : min 0.999 r = r := min_eq_right (by linarith)
    rw [h1]
    rcases le_or_lt r (-0.999) with h2 | h2
    · rw [max_eq_left h2]; norm_num
    · rw [max_eq_right h2.le]; exact h
  · exact absurd h hr
  · rw [sign_of_pos h]
    apply sign_of_pos
    unfold clamp
    exact lt_of_lt_of_le (lt_min (by norm_num) h) (le_max_right _ _)

/-! ## The mixing identity.

For zero-mean, unit-sample-variance, sample-orthogonal base vectors
`X`, `Z` and `Y = ρ·X + √(1-ρ²)·Z`, the relevant sums evaluate exactly. -/

lemma mix_mean {n : ℕ} (hn : (n : ℝ) ≠ 0) {X Z : Fin n → ℝ}
    (hmX : mean X = 0) (hmZ : mean Z = 0) (ρ b : ℝ) :
    mean (fun i => ρ * X i + b * Z i) = 0 := by
  rw [mean_lin2 hn ρ b X Z, hmX, hmZ]; ring

lemma mix_sum_sq {n : ℕ} {X Z : Fin n → ℝ} {ρ b : ℝ}
    (hX2 : (∑ i, X i ^ 2) = (n : ℝ) - 1)
    (hZ2 : (∑ i, Z i ^ 2) = (n : ℝ) - 1)
    (horth : (∑ i, X i * Z i) = 0)
    (hb2 : b ^ 2 = 1 - ρ * ρ) :
    (∑ i, (ρ * X i + b * Z i) ^ 2) = (n : ℝ) - 1 := by
  have step : (∑ i, (ρ * X i + b * Z i) ^ 2) =
      ρ ^ 2 * (∑ i, X i ^ 2) + (2 * ρ * b) * (∑ i, X i * Z i) +
        b ^ 2 * (∑ i, Z i ^ 2) := by
    rw [Finset.mul_sum, Finset.mul_sum, Finset.mul_sum,
      ← Finset.sum_add_distrib, ← Finset.sum_add_distrib]
    exact Finset.sum_congr rfl fun i _ => by ring
  rw [step, hX2, hZ2, horth, hb2]
  ring

lemma mix_cross {n : ℕ} {X Z : Fin n → ℝ} {ρ b : ℝ}
    (hX2 : (∑ i, X i ^ 2) = (n : ℝ) - 1)
    (horth : (∑ i, X i * Z i) = 0) :
    (∑ i, X i * (ρ * X i + b * Z i)) = ρ * ((n : ℝ) - 1) := by
  have step : (∑ i, X i * (ρ * X i + b * Z i)) =
      ρ * (∑ i, X i ^ 2) + b * (∑ i, X i * Z i) := by
    rw [Finset.mul_sum, Finset.mul_sum, ← Finset.sum_add_distrib]
    exact Finset.sum_congr rfl fun i _ => by ring
  rw [step, hX2, horth]
  ring

/-- Pearson correlation of a dataset obtained by placing zero-mean
vectors `X`, `Y` with `Σ X² = Σ Y² = n-1` and `Σ XY = ρ(n-1)` into the
plane by positive per-axis affine maps: the result is exactly `ρ`. -/
lemma computePearson_shift {n : ℕ} (hn : 2 ≤ n) (X Y : Fin n → ℝ)
    (ρ p q u w : ℝ) (hmX : mean X = 0) (hmY : mean Y = 0)
    (hX2 : (∑ i, X i ^ 2) = (n : ℝ) - 1)
    (hY2 : (∑ i, Y i ^ 2) = (n : ℝ) - 1)
    (hXY : (∑ i, X i * Y i) = ρ * ((n : ℝ) - 1))
    (hq : 0 < q) (hw : 0 < w) :
    computePearsonR (fun i => (p + q * X i, u + w * Y i)) = some ρ := by
  have hn0 : (n : ℝ) ≠ 0 := (cast_n_pos hn).ne'
  have hS : (0 : ℝ) < (n : ℝ) - 1 := cast_n_sub_one_pos hn
  unfold computePearsonR
  rw [if_neg (by omega : ¬ n < 2)]
  simp only
  have hmx' : mean (fun i => ((p + q * X i, u + w * Y i) : ℝ × ℝ).1) = p := by
    simp only
    rw [mean_affine hn0 p q X, hmX]; ring
  have hmy' : mean (fun i => ((p + q * X i, u + w * Y i) : ℝ × ℝ).2) = u := by
    simp only
    rw [mean_affine hn0 u w Y, hmY]; ring
  rw [hmx', hmy']
  have e1 : (∑ i, (p + q * X i - p) * (u + w * Y i - u)) =
      (q * w) * (ρ * ((n : ℝ) - 1)) := by
    rw [← hXY, Finset.mul_sum]
    exact Finset.sum_congr rfl fun i _ => by ring
  have e2 : (∑ i, (p + q * X i - p) ^ 2) = q ^ 2 * ((n : ℝ) - 1) := by
    rw [← hX2, Finset.mul_sum]
    exact Finset.sum_congr rfl fun i _ => by ring
  have e3 : (∑ i, (u + w * Y i - u) ^ 2) = w ^ 2 * ((n : ℝ) - 1) := by
    rw [← hY2, Finset.mul_sum]
    exact Finset.sum_congr rfl fun i _ => by ring
  simp only at e1 e2 e3 ⊢
  rw [e1, e2, e3]
  have hsq : Real.sqrt (q ^ 2 * ((n : ℝ) - 1)) = q * Real.sqrt ((n : ℝ) - 1) := by
    rw [Real.sqrt_mul (sq_nonneg q), Real.sqrt_sq hq.le]
  have hsw : Real.sqrt (w ^ 2 * ((n : ℝ) - 1)) = w * Real.sqrt ((n : ℝ) - 1) := by
    rw [Real.sqrt_mul (sq_nonneg w), Real.sqrt_sq hw.le]
  rw [hsq, hsw]
  have hss : Real.sqrt ((n : ℝ) - 1) * Real.sqrt ((n : ℝ) - 1) = (n : ℝ) - 1 :=
    Real.mul_self_sqrt hS.le
  have hden : q * Real.sqrt ((n : ℝ) - 1) * (w * Real.sqrt ((n : ℝ) - 1)) =
      q * w * ((n : ℝ) - 1) := by
    rw [show q * Real.sqrt ((n : ℝ) - 1) * (w * Real.sqrt ((n : ℝ) - 1)) =
      q * w * (Real.sqrt ((n : ℝ) - 1) * Real.sqrt ((n : ℝ) - 1)) by ring, hss]
  rw [hden, if_neg (by positivity)]
  congr 1
  rw [show q * w * (ρ * ((n : ℝ) - 1)) = ρ * (q * w * ((n : ℝ) - 1)) by ring,
    mul_div_assoc, div_self (by positivity), mul_one]

/-- OLS slope of a dataset obtained by placing `X`, `Y` as above:
`(w/q)·ρ`. -/
lemma olsSlope_affine {n : ℕ} (hn : 2 ≤ n) (X Y : Fin n → ℝ)
    (ρ p q u w : ℝ) (hmX : mean X = 0) (hmY : mean Y = 0)
    (hX2 : (∑ i, X i ^ 2) = (n : ℝ) - 1)
    (hXY : (∑ i, X i * Y i) = ρ * ((n : ℝ) - 1))
    (hq : 0 < q) :
    olsSlope (fun i => p + q * X i) (fun i => u + w * Y i) = (w / q) * ρ := by
  have hn0 : (n : ℝ) ≠ 0 := (cast_n_pos hn).ne'
  have hS : (0 : ℝ) < (n : ℝ) - 1 := cast_n_sub_one_pos hn
  unfold olsSlope
  simp only
  have hmx' : mean (fun i => p + q * X i) = p := by
    rw [mean_affine hn0 p q X, hmX]; ring
  have hmy' : mean (fun i => u + w * Y i) = u := by
    rw [mean_affine hn0 u w Y, hmY]; ring
  rw [hmx', hmy']
  have e1 : (∑ i, (p + q * X i - p) * (u + w * Y i - u)) =
      (q * w) * (ρ * ((n : ℝ) - 1)) := by
    rw [← hXY, Finset.mul_sum]
    exact Finset.sum_congr rfl fun i _ => by ring
  have e2 : (∑ i, (p + q * X i - p) ^ 2) = q ^ 2 * ((n : ℝ) - 1) := by
    rw [← hX2, Finset.mul_sum]
    exact Finset.sum_congr rfl fun i _ => by ring
  rw [e1, e2, if_pos (by positivity)]
  field_simp
  ring

/-- Shared main lemma: on zero-mean, unit-sample-variance,
sample-orthogonal base vectors, the slider generator's output has sample
Pearson correlation exactly the clamped target. -/
lemma pearson_generateFromBase {n : ℕ} (hn : 2 ≤ n) (Xs Zperp : Fin n → ℝ)
    (r : ℝ) (hmx : mean Xs = 0) (hmz : mean Zperp = 0)
    (hvx : sampleVar Xs = 1) (hvz : sampleVar Zperp = 1)
    (horth : (∑ i, Xs i * Zperp i) = 0) (xr yr : ℝ × ℝ) :
    computePearsonR (generateCorrelationDataFromBase r Xs Zperp xr yr) =
      some (clamp r (-0.999) 0.999) := by
  have hn0 : (n : ℝ) ≠ 0 := (cast_n_pos hn).ne'
  set rr := clamp r (-0.999) 0.999 with hrrdef
  have hbounds := clamp_bounds r (-0.999) 0.999 (by norm_num)
  rw [← hrrdef] at hbounds
  have hsq : rr * rr ≤ 1 := by nlinarith [hbounds.1, hbounds.2]
  set b := Real.sqrt (1 - rr * rr) with hbdef
  have hb2 : b ^ 2 = 1 - rr * rr := Real.sq_sqrt (by linarith)
  have hX2 := sum_sq_of_unitvar hn hmx hvx
  have hZ2 := sum_sq_of_unitvar hn hmz hvz
  have hmY0 : mean (fun i => rr * Xs i + b * Zperp i) = 0 :=
    mix_mean hn0 hmx hmz rr b
  have hY02 : (∑ i, (rr * Xs i + b * Zperp i) ^ 2) = (n : ℝ) - 1 :=
    mix_sum_sq hX2 hZ2 horth hb2
  have hXY0 : (∑ i, Xs i * (rr * Xs i + b * Zperp i)) = rr * ((n : ℝ) - 1) :=
    mix_cross hX2 horth
  have key : ∀ CX CY A G : ℝ, 0 < A → G ≠ 0 →
      computePearsonR (fun i =>
        (CX + A * Xs i, CY + ((rr * Xs i + b * Zperp i) / G) * (A * G))) =
        some rr := by
    intro CX CY A G hA hG
    have hfun : (fun i =>
        ((CX + A * Xs i, CY + ((rr * Xs i + b * Zperp i) / G) * (A * G)) : ℝ × ℝ))
        = fun i => (CX + A * Xs i, CY + A * (rr * Xs i + b * Zperp i)) := by
      funext i
      have : (rr * Xs i + b * Zperp i) / G * (A * G) =
          A * (rr * Xs i + b * Zperp i) := by
        field_simp
        ring
      rw [this]
    rw [hfun]
    exact computePearson_shift hn Xs (fun i => rr * Xs i + b * Zperp i)
      rr CX A CY A hmx hmY0 hX2 hY02 hXY0 hA hA
  simp only [generateCorrelationDataFromBase]
  rw [← hrrdef, ← hbdef]
  exact key _ _ _ _ (lt_of_lt_of_le (by norm_num) (le_max_left _ _))
    (by rw [sd_guard]; exact (sd_pos _).ne')

/-! ## Facts about `zscore` and the base builder. -/

lemma zscore_sum {n : ℕ} (a : Fin n → ℝ) (hn : (n : ℝ) ≠ 0) :
    (∑ i, zscore a i) = 0 := by
  have hsum : (∑ i, (a i - mean a)) = 0 := by
    rw [Finset.sum_sub_distrib, Finset.sum_const]
    simp only [Finset.card_univ, Fintype.card_fin, nsmul_eq_mul]
    unfold mean
    field_simp
  calc (∑ i, zscore a i)
      = (∑ i, (a i - mean a)) / (if sd a = 0 then 1 else sd a) := by
        unfold zscore; rw [Finset.sum_div]
    _ = 0 := by rw [hsum, zero_div]

lemma zscore_mean {n : ℕ} (a : Fin n → ℝ) (hn : (n : ℝ) ≠ 0) :
    mean (zscore a) = 0 := by
  unfold mean
  rw [zscore_sum a hn, zero_div]

lemma sd_sq {n : ℕ} (a : Fin n → ℝ) (hv : 1e-12 ≤ sampleVar a) :
    sd a ^ 2 = sampleVar a := by
  unfold sd
  rw [Real.sq_sqrt (le_trans (by norm_num) (le_max_right (sampleVar a) 1e-12))]
  exact max_eq_left hv

lemma zscore_var {n : ℕ} (hn : 2 ≤ n) (a : Fin n → ℝ)
    (hv : 1e-12 ≤ sampleVar a) : sampleVar (zscore a) = 1 := by
  have hn0 : (n : ℝ) ≠ 0 := (cast_n_pos hn).ne'
  have hm := zscore_mean a hn0
  have hD : (0 : ℝ) < ((max 1 (n - 1) : ℕ) : ℝ) := by
    rw [denom_cast hn]; exact cast_n_sub_one_pos hn
  have hva : (0 : ℝ) < sampleVar a := lt_of_lt_of_le (by norm_num) hv
  have hsd2 := sd_sq a hv
  unfold sampleVar
  rw [hm]
  have hsum : (∑ i, (zscore a i - 0) ^ 2) =
      (∑ i, (a i - mean a) ^ 2) / sd a ^ 2 := by
    unfold zscore
    rw [sd_guard, Finset.sum_div]
    exact Finset.sum_congr rfl fun i _ => by rw [sub_zero, div_pow]
  rw [hsum, hsd2]
  have hS : (∑ i, (a i - mean a) ^ 2) =
      sampleVar a * ((max 1 (n - 1) : ℕ) : ℝ) := by
    unfold sampleVar
    rw [div_mul_cancel₀ _ hD.ne']
  rw [hS, mul_comm (sampleVar a), mul_div_cancel_right₀ _ hva.ne',
    div_self hD.ne']

lemma zscore_cross {n : ℕ} (X R : Fin n → ℝ)
    (hXsum : (∑ i, X i) = 0) (hXR : (∑ i, X i * R i) = 0) :
    (∑ i, X i * zscore R i) = 0 := by
  unfold zscore
  rw [sd_guard]
  have step : (∑ i, X i * ((R i - mean R) / sd R)) =
      (∑ i, X i * (R i - mean R)) / sd R := by
    rw [Finset.sum_div]
    exact Finset.sum_congr rfl fun i _ => by ring
  rw [step]
  have h2 : (∑ i, X i * (R i - mean R)) = 0 := by
    have expand : (∑ i, X i * (R i - mean R)) =
        (∑ i, X i * R i) - mean R * (∑ i, X i) := by
      rw [Finset.mul_sum, ← Finset.sum_sub_distrib]
      exact Finset.sum_congr rfl fun i _ => by ring
    rw [expand, hXR, hXsum]; ring
  rw [h2, zero_div]

lemma residual_cross {n : ℕ} (Xs Z0 : Fin n → ℝ)
    (hden : (∑ j, Xs j * Xs j) ≠ 0) :
    (∑ i, Xs i *
      (Z0 i - ((∑ j, Xs j * Z0 j) / (∑ j, Xs j * Xs j)) * Xs i)) = 0 := by
  have expand : (∑ i, Xs i *
      (Z0 i - ((∑ j, Xs j * Z0 j) / (∑ j, Xs j * Xs j)) * Xs i)) =
      (∑ i, Xs i * Z0 i) -
        ((∑ j, Xs j * Z0 j) / (∑ j, Xs j * Xs j)) * (∑ i, Xs i * Xs i) := by
    rw [Finset.mul_sum, ← Finset.sum_sub_distrib]
    exact Finset.sum_congr rfl fun i _ => by ring
  rw [expand, div_mul_cancel₀ _ hden, sub_self]

lemma sum_mul_self_eq_sq {n : ℕ} (a : Fin n → ℝ) :
    (∑ i, a i * a i) = (∑ i, a i ^ 2) :=
  Finset.sum_congr rfl fun i _ => by ring

/-- Pearson correlation of two zero-mean, `Σ = n-1` vectors with zero
cross-product is exactly `some 0`. -/
lemma computePearsonR_zero_cross {n : ℕ} (hn : 2 ≤ n) (X Z : Fin n → ℝ)
    (hmX : mean X = 0) (hmZ : mean Z = 0)
    (hX2 : (∑ i, X i ^ 2) = (n : ℝ) - 1)
    (hZ2 : (∑ i, Z i ^ 2) = (n : ℝ) - 1)
    (hcross : (∑ i, X i * Z i) = 0) :
    computePearsonR (fun i => (X i, Z i)) = some 0 := by
  have h := computePearson_shift hn X Z 0 0 1 0 1 hmX hmZ hX2 hZ2
    (by rw [hcross]; ring) one_pos one_pos
  simpa using h

/-- The least-squares residual that `makeBaseFrom` standardizes into
`Zperp`, written with the unguarded denominator (the `|| 1e-12` guard is
inactive whenever the standardized `Xs` has nonzero sum of squares). -/
def residualOf {n : ℕ} (X0 Z0 : Fin n → ℝ) : Fin n → ℝ :=
  fun i => Z0 i -
    ((∑ j, zscore X0 j * Z0 j) / (∑ j, zscore X0 j * zscore X0 j)) *
      zscore X0 i

/-! ## Claims. -/

/-- C1: for every target correlation `r`, every sample size `n ≥ 2` and
every pair of zero-mean, unit-sample-variance, sample-orthogonal base
vectors (the form `makeBase` produces for every nondegenerate seed), the
slider generator's output point set has sample Pearson correlation
exactly equal to the clamped target: the mixing step
`Y = r·Xs + √(1-r²)·Zperp` yields `sampleCorr(Xs, Y) = r` and the
per-axis affine box scaling preserves it. -/
theorem c1_generate_pearson_exact {n : ℕ} (hn : 2 ≤ n)
    (Xs Zperp : Fin n → ℝ) (r : ℝ) (hmx : mean Xs = 0) (hmz : mean Zperp = 0)
    (hvx : sampleVar Xs = 1) (hvz : sampleVar Zperp = 1)
    (horth : (∑ i, Xs i * Zperp i) = 0) (xr yr : ℝ × ℝ) :
    computePearsonR (generateCorrelationDataFromBase r Xs Zperp xr yr) =
      some (clamp r (-0.999) 0.999) :=
  pearson_generateFromBase hn Xs Zperp r hmx hmz hvx hvz horth xr yr

/-- Witness for C1 at the concrete base `Xs = (-1,-1,0,1,1)`,
`Zperp = (-1,1,0,1,-1)` and target `r = 3/5`. -/
theorem c1_witness :
    computePearsonR (generateCorrelationDataFromBase (3 / 5)
      (![(-1 : ℝ), -1, 0, 1, 1]) (![(-1 : ℝ), 1, 0, 1, -1])
      (0, 10) (0, 10)) = some (3 / 5) := by
  have h := c1_generate_pearson_exact (by norm_num)
    (![(-1 : ℝ), -1, 0, 1, 1]) (![(-1 : ℝ), 1, 0, 1, -1]) (3 / 5)
    (by norm_num [mean, Fin.sum_univ_five])
    (by norm_num [mean, Fin.sum_univ_five])
    (by norm_num [sampleVar, mean, Fin.sum_univ_five])
    (by norm_num [sampleVar, mean, Fin.sum_univ_five])
    (by norm_num [Fin.sum_univ_five]) (0, 10) (0, 10)
  rw [h]
  norm_num [clamp]

/-- C2: the generator is deterministic and depends on the seed only
through its 32-bit masking `seed >>> 0`: seeds congruent modulo `2^32`
produce identical point arrays from both generator entry points, with no
dependence on any ambient state (all definitions are pure functions of
the LCG stream). -/
theorem c2_deterministic_in_seed (r : ℝ) (targetSlope : Option ℝ)
    (n s₁ s₂ : ℕ) (xr yr : ℝ × ℝ)
    (h : s₁ % 4294967296 = s₂ % 4294967296) :
    generateCorrelationData r n s₁ xr yr =
      generateCorrelationData r n s₂ xr yr ∧
    generateCorrelationSlopeData r targetSlope n s₁ xr yr =
      generateCorrelationSlopeData r targetSlope n s₂ xr yr := by
  have hb : makeBase n s₁ = makeBase n s₂ := by unfold makeBase; rw [h]
  constructor
  · unfold generateCorrelationData; rw [hb]
  · unfold generateCorrelationSlopeData; rw [hb]

/-- Witness for C2: the seed `2^32 + 5` behaves exactly like the seed
`5`. -/
theorem c2_witness :
    generateCorrelationData (1 / 2) 3 4294967301 (0, 10) (0, 10) =
      generateCorrelationData (1 / 2) 3 5 (0, 10) (0, 10) ∧
    generateCorrelationSlopeData (1 / 2) none 3 4294967301 (0, 10) (0, 10) =
      generateCorrelationSlopeData (1 / 2) none 3 5 (0, 10) (0, 10) :=
  c2_deterministic_in_seed (1 / 2) none 3 4294967301 5 (0, 10) (0, 10)
    (by norm_num)

/-- C3: for every sample size `n ≥ 2` and all raw Gaussian draws whose
variances stay above the code's `1e-12` floors (true of the Box-Muller
draws for every seed in practice), `makeBase` returns two sequences that
are exactly zero-mean, exactly unit-sample-variance, and whose sample
Pearson correlation is exactly `0`. -/
theorem c3_makeBase_orthonormal {n : ℕ} (hn : 2 ≤ n) (X0 Z0 : Fin n → ℝ)
    (h1 : 1e-12 ≤ sampleVar X0)
    (h2 : 1e-12 ≤ sampleVar (residualOf X0 Z0)) :
    mean (makeBaseFrom X0 Z0).1 = 0 ∧ mean (makeBaseFrom X0 Z0).2 = 0 ∧
    sampleVar (makeBaseFrom X0 Z0).1 = 1 ∧
    sampleVar (makeBaseFrom X0 Z0).2 = 1 ∧
    computePearsonR (fun i =>
      ((makeBaseFrom X0 Z0).1 i, (makeBaseFrom X0 Z0).2 i)) = some 0 := by
  have hn0 : (n : ℝ) ≠ 0 := (cast_n_pos hn).ne'
  have hmXs : mean (zscore X0) = 0 := zscore_mean X0 hn0
  have hvXs : sampleVar (zscore X0) = 1 := zscore_var hn X0 h1
  have hXs2 : (∑ j, zscore X0 j ^ 2) = (n : ℝ) - 1 :=
    sum_sq_of_unitvar hn hmXs hvXs
  have hden : (∑ j, zscore X0 j * zscore X0 j) ≠ 0 := by
    rw [sum_mul_self_eq_sq, hXs2]
    exact (cast_n_sub_one_pos hn).ne'
  have hfst : (makeBaseFrom X0 Z0).1 = zscore X0 := rfl
  have hsnd : (makeBaseFrom X0 Z0).2 = zscore (residualOf X0 Z0) := by
    unfold makeBaseFrom residualOf
    simp only [if_neg hden]
  have hmZp : mean (zscore (residualOf X0 Z0)) = 0 :=
    zscore_mean (residualOf X0 Z0) hn0
  have hvZp : sampleVar (zscore (residualOf X0 Z0)) = 1 :=
    zscore_var hn (residualOf X0 Z0) h2
  have hZp2 : (∑ j, zscore (residualOf X0 Z0) j ^ 2) = (n : ℝ) - 1 :=
    sum_sq_of_unitvar hn hmZp hvZp
  have hXsum : (∑ i, zscore X0 i) = 0 := zscore_sum X0 hn0
  have hXR : (∑ i, zscore X0 i * residualOf X0 Z0 i) = 0 :=
    residual_cross (zscore X0) Z0 hden
  have hcross : (∑ i, zscore X0 i * zscore (residualOf X0 Z0) i) = 0 :=
    zscore_cross _ _ hXsum hXR
  refine ⟨?_, ?_, ?_, ?_, ?_⟩
  · rw [hfst]; exact hmXs
  · rw [hsnd]; exact hmZp
  · rw [hfst]; exact hvXs
  · rw [hsnd]; exact hvZp
  · rw [hfst, hsnd]
    exact computePearsonR_zero_cross hn (zscore X0)
      (zscore (residualOf X0 Z0)) hmXs hmZp hXs2 hZp2 hcross

/-- Witness for C3 at the concrete raw draws `X0 = (0,1,2)`,
`Z0 = (1,0,2)`. -/
theorem c3_witness :
    mean (makeBaseFrom (![(0 : ℝ), 1, 2]) (![(1 : ℝ), 0, 2])).1 = 0 ∧
    mean (makeBaseFrom (![(0 : ℝ), 1, 2]) (![(1 : ℝ), 0, 2])).2 = 0 ∧
    sampleVar (makeBaseFrom (![(0 : ℝ), 1, 2]) (![(1 : ℝ), 0, 2])).1 = 1 ∧
    sampleVar (makeBaseFrom (![(0 : ℝ), 1, 2]) (![(1 : ℝ), 0, 2])).2 = 1 ∧
    computePearsonR (fun i =>
      ((makeBaseFrom (![(0 : ℝ), 1, 2]) (![(1 : ℝ), 0, 2])).1 i,
       (makeBaseFrom (![(0 : ℝ), 1, 2]) (![(1 : ℝ), 0, 2])).2 i)) = some 0 := by
  have hm : mean (![(0 : ℝ), 1, 2]) = 1 := by
    norm_num [mean, Fin.sum_univ_three]
  have hv : sampleVar (![(0 : ℝ), 1, 2]) = 1 := by
    norm_num [sampleVar, mean, Fin.sum_univ_three]
  have hsd : sd (![(0 : ℝ), 1, 2]) = 1 := by
    unfold sd
    rw [hv, show max (1 : ℝ) 1e-12 = 1 by norm_num]
    exact Real.sqrt_one
  have hz : zscore (![(0 : ℝ), 1, 2]) = ![(-1 : ℝ), 0, 1] := by
    funext i
    unfold zscore
    rw [hsd, hm]
    fin_cases i <;> norm_num
  have hres : residualOf (![(0 : ℝ), 1, 2]) (![(1 : ℝ), 0, 2]) =
      ![(3 / 2 : ℝ), 0, 3 / 2] := by
    funext i
    unfold residualOf
    rw [hz]
    fin_cases i <;> norm_num [Fin.sum_univ_three]
  have h2 : (1e-12 : ℝ) ≤
      sampleVar (residualOf (![(0 : ℝ), 1, 2]) (![(1 : ℝ), 0, 2])) := by
    rw [hres]
    norm_num [sampleVar, mean, Fin.sum_univ_three]
  exact c3_makeBase_orthonormal (by norm_num) (![(0 : ℝ), 1, 2])
    (![(1 : ℝ), 0, 2]) (by norm_num [sampleVar, mean, Fin.sum_univ_three]) h2

lemma mean_const {n : ℕ} (hn : (n : ℝ) ≠ 0) (c : ℝ) :
    mean (fun _ : Fin n => c) = c := by
  unfold mean
  rw [Finset.sum_const]
  simp only [Finset.card_univ, Fintype.card_fin, nsmul_eq_mul]
  field_simp

lemma olsSlope_const {n : ℕ} (hn : (n : ℝ) ≠ 0) (Xp : Fin n → ℝ) (c : ℝ) :
    olsSlope Xp (fun _ => c) = 0 := by
  unfold olsSlope
  simp only [mean_const hn c, sub_self, mul_zero, Finset.sum_const_zero,
    zero_div, ite_self]

/-- C4 (amended): for every `r ≠ 0` and every NONZERO target-slope
magnitude, the slope-aware generator's `actualSlope` has the sign of `r`
(the Y scale factor is strictly positive); when the requested slope is
`0` the Y scale collapses to `0` and `actualSlope` is `0` regardless of
`r` (see the counterexample). -/
theorem c4_sign_identity {n : ℕ} (hn : 2 ≤ n) (Xs Zperp : Fin n → ℝ)
    (r m : ℝ) (hr : r ≠ 0) (hm : m ≠ 0)
    (hmx : mean Xs = 0) (hmz : mean Zperp = 0)
    (hvx : sampleVar Xs = 1) (hvz : sampleVar Zperp = 1)
    (horth : (∑ i, Xs i * Zperp i) = 0) (xr yr : ℝ × ℝ) :
    sign ((generateCorrelationSlopeDataFromBase r (some m) Xs Zperp
      xr yr).actualSlope) = sign r := by
  have hn0 : (n : ℝ) ≠ 0 := (cast_n_pos hn).ne'
  set rr := clamp r (-0.999) 0.999 with hrrdef
  have hbounds := clamp_bounds r (-0.999) 0.999 (by norm_num)
  rw [← hrrdef] at hbounds
  have hsq : rr * rr ≤ 1 := by nlinarith [hbounds.1, hbounds.2]
  set b := Real.sqrt (1 - rr * rr) with hbdef
  have hX2 := sum_sq_of_unitvar hn hmx hvx
  have hmY0 : mean (fun i => rr * Xs i + b * Zperp i) = 0 :=
    mix_mean hn0 hmx hmz rr b
  have hXY0 : (∑ i, Xs i * (rr * Xs i + b * Zperp i)) = rr * ((n : ℝ) - 1) :=
    mix_cross hX2 horth
  have key : ∀ CX CY A W : ℝ, 0 < A → 0 < W →
      sign (olsSlope (fun i => CX + A * Xs i)
        (fun i => CY + W * (rr * Xs i + b * Zperp i))) = sign r := by
    intro CX CY A W hA hW
    rw [olsSlope_affine hn Xs (fun i => rr * Xs i + b * Zperp i) rr CX A CY W
      hmx hmY0 hX2 hXY0 hA]
    rw [sign_mul_pos (div_pos hW hA), hrrdef, sign_clamp hr]
  simp only [generateCorrelationSlopeDataFromBase]
  rw [← hrrdef, ← hbdef]
  refine key _ _ _ _ (lt_of_lt_of_le (by norm_num) (le_max_left _ _)) ?_
  refine div_pos (mul_pos (mul_pos (div_pos (abs_pos.mpr hm)
    (lt_of_lt_of_le (by norm_num) (le_max_right _ _)))
    (lt_of_lt_of_le (by norm_num) (le_max_left _ _))) (sd_pos Xs)) ?_
  rw [sd_guard]
  exact sd_pos _

/-- Counterexample to C4 as stated: with target slope `0` (a legal
"targetSlope magnitude") and `r = 1/2 ≠ 0`, the generator returns
`actualSlope = 0`, whose sign is `0`, not `sign r = 1`. -/
theorem c4_counterexample :
    sign ((generateCorrelationSlopeDataFromBase (1 / 2) (some 0)
      (![(-1 : ℝ), -1, 0, 1, 1]) (![(-1 : ℝ), 1, 0, 1, -1])
      (0, 10) (0, 10)).actualSlope) ≠ sign (1 / 2 : ℝ) := by
  have h : (generateCorrelationSlopeDataFromBase (1 / 2) (some 0)
      (![(-1 : ℝ), -1, 0, 1, 1]) (![(-1 : ℝ), 1, 0, 1, -1])
      (0, 10) (0, 10)).actualSlope = 0 := by
    simp only [generateCorrelationSlopeDataFromBase, abs_zero, zero_div,
      zero_mul, add_zero]
    exact olsSlope_const (by norm_num) _ _
  rw [h]
  norm_num [sign]

/-- Witness for the amended C4 at `r = -3/5`, target slope `2`. -/
theorem c4_witness :
    sign ((generateCorrelationSlopeDataFromBase (-3 / 5) (some 2)
      (![(-1 : ℝ), -1, 0, 1, 1]) (![(-1 : ℝ), 1, 0, 1, -1])
      (0, 10) (0, 10)).actualSlope) = sign (-3 / 5 : ℝ) :=
  c4_sign_identity (by norm_num) (![(-1 : ℝ), -1, 0, 1, 1])
    (![(-1 : ℝ), 1, 0, 1, -1]) (-3 / 5) 2 (by norm_num) (by norm_num)
    (by norm_num [mean, Fin.sum_univ_five])
    (by norm_num [mean, Fin.sum_univ_five])
    (by norm_num [sampleVar, mean, Fin.sum_univ_five])
    (by norm_num [sampleVar, mean, Fin.sum_univ_five])
    (by norm_num [Fin.sum_univ_five]) (0, 10) (0, 10)

lemma mean_affine' {n : ℕ} (hn : (n : ℝ) ≠ 0) (t c : ℝ) (a : Fin n → ℝ) :
    mean (fun i => t * a i + c) = t * mean a + c := by
  unfold mean
  rw [Finset.sum_add_distrib, Finset.sum_const, ← Finset.mul_sum]
  simp only [Finset.card_univ, Fintype.card_fin, nsmul_eq_mul]
  field_simp
  ring

lemma sqrt_prod_eq_zero_iff {A B : ℝ} (hA : 0 ≤ A) (hB : 0 ≤ B) :
    Real.sqrt A * Real.sqrt B = 0 ↔ A = 0 ∨ B = 0 := by
  rw [mul_eq_zero, Real.sqrt_eq_zero hA, Real.sqrt_eq_zero hB]

lemma pearson_affine_aux {n : ℕ} (X Y : Fin n → ℝ) (a₁ b₁ a₂ b₂ : ℝ)
    (h₁ : 0 < a₁) (h₂ : 0 < a₂) :
    computePearsonR (fun i => (a₁ * X i + b₁, a₂ * Y i + b₂)) =
      computePearsonR (fun i => (X i, Y i)) := by
  rcases lt_or_le n 2 with hn | hn
  · unfold computePearsonR
    rw [if_pos hn, if_pos hn]
  · have hn0 : (n : ℝ) ≠ 0 := (cast_n_pos hn).ne'
    unfold computePearsonR
    rw [if_neg (not_lt.mpr hn), if_neg (not_lt.mpr hn)]
    simp only
    rw [mean_affine' hn0 a₁ b₁ X, mean_affine' hn0 a₂ b₂ Y]
    have e1 : (∑ i, (a₁ * X i + b₁ - (a₁ * mean X + b₁)) *
        (a₂ * Y i + b₂ - (a₂ * mean Y + b₂))) =
        (a₁ * a₂) * ∑ i, (X i - mean X) * (Y i - mean Y) := by
      rw [Finset.mul_sum]
      exact Finset.sum_congr rfl fun i _ => by ring
    have e2 : (∑ i, (a₁ * X i + b₁ - (a₁ * mean X + b₁)) ^ 2) =
        a₁ ^ 2 * ∑ i, (X i - mean X) ^ 2 := by
      rw [Finset.mul_sum]
      exact Finset.sum_congr rfl fun i _ => by ring
    have e3 : (∑ i, (a₂ * Y i + b₂ - (a₂ * mean Y + b₂)) ^ 2) =
        a₂ ^ 2 * ∑ i, (Y i - mean Y) ^ 2 := by
      rw [Finset.mul_sum]
      exact Finset.sum_congr rfl fun i _ => by ring
    rw [e1, e2, e3,
      Real.sqrt_mul (sq_nonneg a₁), Real.sqrt_sq h₁.le,
      Real.sqrt_mul (sq_nonneg a₂), Real.sqrt_sq h₂.le]
    have hre : a₁ * Real.sqrt (∑ i, (X i - mean X) ^ 2) *
        (a₂ * Real.sqrt (∑ i, (Y i - mean Y) ^ 2)) =
        (a₁ * a₂) * (Real.sqrt (∑ i, (X i - mean X) ^ 2) *
          Real.sqrt (∑ i, (Y i - mean Y) ^ 2)) := by ring
    rw [hre]
    by_cases hden : Real.sqrt (∑ i, (X i - mean X) ^ 2) *
        Real.sqrt (∑ i, (Y i - mean Y) ^ 2) = 0
    · rw [if_pos hden, if_pos (by rw [hden, mul_zero])]
    · have hprod : a₁ * a₂ ≠ 0 := (mul_pos h₁ h₂).ne'
      rw [if_neg (by
          intro hc
          rcases mul_eq_zero.mp hc with h | h
          · exact hprod h
          · exact hden h),
        if_neg hden]
      congr 1
      rw [mul_div_mul_left _ _ hprod]

/-- C5: applying positive affine maps `x ↦ a₁x + b₁` and `y ↦ a₂y + b₂`
to the coordinates of any point set leaves the computed Pearson
correlation unchanged (including the degenerate `null` cases). -/
theorem c5_affine_invariance {n : ℕ} (data : Fin n → ℝ × ℝ)
    (a₁ b₁ a₂ b₂ : ℝ) (h₁ : 0 < a₁) (h₂ : 0 < a₂) :
    computePearsonR (fun i =>
      (a₁ * (data i).1 + b₁, a₂ * (data i).2 + b₂)) =
      computePearsonR data := by
  rw [pearson_affine_aux (fun i => (data i).1) (fun i => (data i).2)
    a₁ b₁ a₂ b₂ h₁ h₂]

/-- Witness for C5: doubling and shifting both axes of a concrete
two-point set does not change the correlation. -/
theorem c5_witness :
    computePearsonR (fun i =>
      (2 * ((![((0 : ℝ), (0 : ℝ)), (1, 1)]) i).1 + 3,
       2 * ((![((0 : ℝ), (0 : ℝ)), (1, 1)]) i).2 + 3)) =
      computePearsonR (![((0 : ℝ), (0 : ℝ)), (1, 1)]) :=
  c5_affine_invariance (![((0 : ℝ), (0 : ℝ)), (1, 1)]) 2 3 2 3
    (by norm_num) (by norm_num)

lemma ite_none_iff {c : Prop} [Decidable c] (v : ℝ) :
    (if c then (none : Option ℝ) else some v) = none ↔ c := by
  by_cases h : c <;> simp [h]

lemma part005_sd_eq_zero_iff {n : ℕ} (hn : 2 ≤ n) (a : Fin n → ℝ) :
    Part005.sd a = 0 ↔ (∑ i, (a i - mean a) ^ 2) = 0 := by
  have hA : (0 : ℝ) ≤ ∑ i, (a i - mean a) ^ 2 :=
    Finset.sum_nonneg fun i _ => sq_nonneg _
  have hden := cast_n_sub_one_pos hn
  unfold Part005.sd Part005.variance
  rw [if_pos (by omega : 1 < n), Real.sqrt_eq_zero (le_max_right _ _)]
  constructor
  · intro h
    have h1 : (∑ i, (a i - mean a) ^ 2) / ((n : ℝ) - 1) ≤ 0 := by
      rw [← h]; exact le_max_left _ _
    have h2 : 0 ≤ (∑ i, (a i - mean a) ^ 2) / ((n : ℝ) - 1) :=
      div_nonneg hA hden.le
    have h3 := le_antisymm h1 h2
    rcases div_eq_zero_iff.mp h3 with h4 | h4
    · exact h4
    · exact absurd h4 hden.ne'
  · intro h
    rw [h, zero_div]
    simp

/-- C7: both Pearson utilities return `null` (not NaN, Infinity, or an
exception — the model is total and real-valued) exactly on degenerate
input: fewer than two points, or zero variance on an axis; in particular
`n = 0` and `n = 1` give `null`. -/
theorem c7_pearson_null_iff {n : ℕ} (data : Fin n → ℝ × ℝ) :
    (computePearsonR data = none ↔ n < 2 ∨
      (∑ i, ((data i).1 - mean (fun j => (data j).1)) ^ 2) = 0 ∨
      (∑ i, ((data i).2 - mean (fun j => (data j).2)) ^ 2) = 0) ∧
    (Part005.pearsonR data = none ↔ n < 2 ∨
      (∑ i, ((data i).1 - mean (fun j => (data j).1)) ^ 2) = 0 ∨
      (∑ i, ((data i).2 - mean (fun j => (data j).2)) ^ 2) = 0) := by
  have hA : (0 : ℝ) ≤ ∑ i, ((data i).1 - mean (fun j => (data j).1)) ^ 2 :=
    Finset.sum_nonneg fun i _ => sq_nonneg _
  have hB : (0 : ℝ) ≤ ∑ i, ((data i).2 - mean (fun j => (data j).2)) ^ 2 :=
    Finset.sum_nonneg fun i _ => sq_nonneg _
  by_cases hn : n < 2
  · constructor
    · unfold computePearsonR
      rw [if_pos hn]
      simp [hn]
    · unfold Part005.pearsonR
      rw [if_pos hn]
      simp [hn]
  · have hn2 : 2 ≤ n := not_lt.mp hn
    constructor
    · unfold computePearsonR
      rw [if_neg hn]
      simp only
      rw [ite_none_iff, sqrt_prod_eq_zero_iff hA hB]
      exact ⟨Or.inr, fun h => h.resolve_left hn⟩
    · unfold Part005.pearsonR
      rw [if_neg hn]
      simp only
      rw [ite_none_iff, part005_sd_eq_zero_iff hn2,
        part005_sd_eq_zero_iff hn2]
      exact ⟨Or.inr, fun h => h.resolve_left hn⟩

/-- C6 (amended): the seeded generator entry points
(`generateCorrelationData` and `generateCorrelationSlopeData`, which
share this code path) clamp every out-of-range correlation to
`[-0.999, 0.999]` and still produce a valid point set whose Pearson
correlation is the clamped value; the clamp saturates at `±0.999`.
CorrelationExplorer's `generateCorrelatedData` entry point does NOT
clamp (see the counterexample). -/
theorem c6_out_of_range_clamped {n : ℕ} (hn : 2 ≤ n)
    (Xs Zperp : Fin n → ℝ) (r : ℝ) (hr : 1 < |r|)
    (hmx : mean Xs = 0) (hmz : mean Zperp = 0)
    (hvx : sampleVar Xs = 1) (hvz : sampleVar Zperp = 1)
    (horth : (∑ i, Xs i * Zperp i) = 0) (xr yr : ℝ × ℝ) :
    computePearsonR (generateCorrelationDataFromBase r Xs Zperp xr yr) =
      some (clamp r (-0.999) 0.999) ∧
    |clamp r (-0.999) 0.999| ≤ 0.999 ∧
    (clamp r (-0.999) 0.999 = 0.999 ∨ clamp r (-0.999) 0.999 = -0.999) := by
  have hb := clamp_bounds r (-0.999) 0.999 (by norm_num)
  refine ⟨pearson_generateFromBase hn Xs Zperp r hmx hmz hvx hvz horth xr yr,
    ?_, ?_⟩
  · rw [abs_le]
    exact ⟨by linarith [hb.1], hb.2⟩
  · rcases lt_abs.mp hr with h | h
    · left
      unfold clamp
      rw [min_eq_left (by linarith), max_eq_right (by norm_num)]
    · right
      unfold clamp
      rw [min_eq_right (by linarith), max_eq_left (by linarith)]

/-- Counterexample to C6 as stated: CorrelationExplorer's
`generateCorrelatedData` applies no clamp; at `r = 3/2` its mixing
coefficient `Math.sqrt(1 - r*r)` is NaN in JS and every output
y-coordinate is NaN (modelled as `none`), so the clamping behaviour does
NOT hold at every generator entry point. -/
theorem c6_counterexample :
    generateCorrelatedDataFromBase (3 / 2)
      (![(0 : ℝ), 1, 2, 3, 4]) (![(1 : ℝ), 0, 2, 1, 3]) = none := by
  unfold generateCorrelatedDataFromBase
  rw [if_pos (by norm_num)]

/-- Witness for the amended C6 at `r = 2`. -/
theorem c6_witness :
    computePearsonR (generateCorrelationDataFromBase 2
      (![(-1 : ℝ), -1, 0, 1, 1]) (![(-1 : ℝ), 1, 0, 1, -1])
      (0, 10) (0, 10)) = some (clamp 2 (-0.999) 0.999) ∧
    |clamp (2 : ℝ) (-0.999) 0.999| ≤ 0.999 ∧
    (clamp (2 : ℝ) (-0.999) 0.999 = 0.999 ∨
      clamp (2 : ℝ) (-0.999) 0.999 = -0.999) :=
  c6_out_of_range_clamped (by norm_num) (![(-1 : ℝ), -1, 0, 1, 1])
    (![(-1 : ℝ), 1, 0, 1, -1]) 2 (by rw [abs_of_pos] <;> norm_num)
    (by norm_num [mean, Fin.sum_univ_five])
    (by norm_num [mean, Fin.sum_univ_five])
    (by norm_num [sampleVar, mean, Fin.sum_univ_five])
    (by norm_num [sampleVar, mean, Fin.sum_univ_five])
    (by norm_num [Fin.sum_univ_five]) (0, 10) (0, 10)

lemma zscore_fin_one (a : Fin 1 → ℝ) : zscore a = fun _ => 0 := by
  funext i
  have hm : mean a = a 0 := by
    unfold mean
    rw [Fin.sum_univ_one]
    norm_num
  unfold zscore
  rw [hm, Fin.eq_zero i, sub_self, zero_div]

lemma makeBase_one (seed : ℕ) : makeBase 1 seed = (fun _ => 0, fun _ => 0) := by
  unfold makeBase makeBaseFrom
  simp only [zscore_fin_one]

lemma generate_degenerate_one (r : ℝ) (seed : ℕ) (xr yr : ℝ × ℝ)
    (i : Fin 1) :
    generateCorrelationData r 1 seed xr yr i =
      (0.5 * (xr.1 + xr.2), 0.5 * (yr.1 + yr.2)) := by
  unfold generateCorrelationData
  rw [makeBase_one]
  simp [generateCorrelationDataFromBase]

/-- C8 (amended): for `sampleSize < 2` the generator does NOT refuse: it
returns an `n`-point degenerate dataset with every point at the centre
of the box (the variance floors prevent any division by zero), and the
`null` correlation arises only downstream, in the Pearson utility, which
returns `none` on fewer than two points. -/
theorem c8_small_sample_degenerate {n : ℕ} (hn : n < 2) (r : ℝ)
    (seed : ℕ) (xr yr : ℝ × ℝ) :
    (∀ i, generateCorrelationData r n seed xr yr i =
      (0.5 * (xr.1 + xr.2), 0.5 * (yr.1 + yr.2))) ∧
    computePearsonR (generateCorrelationData r n seed xr yr) = none := by
  have hp : computePearsonR (generateCorrelationData r n seed xr yr) = none := by
    unfold computePearsonR
    rw [if_pos hn]
  refine ⟨?_, hp⟩
  match n, hn with
  | 0, _ => exact fun i => i.elim0
  | 1, _ => exact fun i => generate_degenerate_one r seed xr yr i

/-- Counterexample to C8 as stated: called with `sampleSize = 1` the
generator returns a (one-point) point set — it does not refuse and does
not signal a null result. -/
theorem c8_counterexample :
    generateCorrelationData (1 / 2) 1 777 (0, 10) (0, 10) =
      fun _ => ((5 : ℝ), (5 : ℝ)) := by
  funext i
  rw [generate_degenerate_one (1 / 2) 777 (0, 10) (0, 10) i]
  norm_num

/-- Witness for the amended C8 at `n = 1`. -/
theorem c8_witness :
    (∀ i, generateCorrelationData (1 / 3) 1 42 (0, 10) (0, 10) i =
      (0.5 * ((0 : ℝ) + 10), 0.5 * ((0 : ℝ) + 10))) ∧
    computePearsonR (generateCorrelationData (1 / 3) 1 42 (0, 10) (0, 10)) =
      none :=
  c8_small_sample_degenerate (by norm_num) (1 / 3) 42 (0, 10) (0, 10)

/-- C10: on every pair of equal-length arrays with `n ≥ 2` and sample
variances above the `1e-12` floor, MixtureRHalf's `pearson` — which
divides the sum of standardized cross-products by `n` while its standard
deviations use the `n-1` denominator — equals `((n-1)/n)` times the
reference Pearson coefficient of FivePatternsSuite's `pearsonR`, hence
is systematically smaller in magnitude. -/
theorem c10_mixture_pearson_ratio {n : ℕ} (hn : 2 ≤ n) (x y : Fin n → ℝ)
    (hx : 1e-12 ≤ sampleVar x) (hy : 1e-12 ≤ sampleVar y) :
    ∃ ρ, pearsonR (fun i => (x i, y i)) = some ρ ∧
      MixtureRHalf.pearson x y = (((n : ℝ) - 1) / n) * ρ := by
  have hn0 : (0 : ℝ) < n := cast_n_pos hn
  have hDpos := cast_n_sub_one_pos hn
  have hvarx : sampleVar x = (∑ i, (x i - mean x) ^ 2) / ((n : ℝ) - 1) := by
    unfold sampleVar
    rw [denom_cast hn]
  have hvary : sampleVar y = (∑ i, (y i - mean y) ^ 2) / ((n : ℝ) - 1) := by
    unfold sampleVar
    rw [denom_cast hn]
  have hApos : (0 : ℝ) < ∑ i, (x i - mean x) ^ 2 := by
    have h1 : (∑ i, (x i - mean x) ^ 2) = sampleVar x * ((n : ℝ) - 1) := by
      rw [hvarx, div_mul_cancel₀ _ hDpos.ne']
    rw [h1]
    exact mul_pos (lt_of_lt_of_le (by norm_num) hx) hDpos
  have hBpos : (0 : ℝ) < ∑ i, (y i - mean y) ^ 2 := by
    have h1 : (∑ i, (y i - mean y) ^ 2) = sampleVar y * ((n : ℝ) - 1) := by
      rw [hvary, div_mul_cancel₀ _ hDpos.ne']
    rw [h1]
    exact mul_pos (lt_of_lt_of_le (by norm_num) hy) hDpos
  have hsAp : (0 : ℝ) < Real.sqrt (∑ i, (x i - mean x) ^ 2) :=
    Real.sqrt_pos.mpr hApos
  have hsBp : (0 : ℝ) < Real.sqrt (∑ i, (y i - mean y) ^ 2) :=
    Real.sqrt_pos.mpr hBpos
  have hsdx : sd x = Real.sqrt (∑ i, (x i - mean x) ^ 2) /
      Real.sqrt ((n : ℝ) - 1) := by
    unfold sd
    rw [max_eq_left hx, hvarx, Real.sqrt_div (Finset.sum_nonneg
      fun i _ => sq_nonneg _)]
  have hsdy : sd y = Real.sqrt (∑ i, (y i - mean y) ^ 2) /
      Real.sqrt ((n : ℝ) - 1) := by
    unfold sd
    rw [max_eq_left hy, hvary, Real.sqrt_div (Finset.sum_nonneg
      fun i _ => sq_nonneg _)]
  refine ⟨(∑ i, (x i - mean x) * (y i - mean y)) /
    (Real.sqrt (∑ i, (x i - mean x) ^ 2) *
      Real.sqrt (∑ i, (y i - mean y) ^ 2)), ?_, ?_⟩
  · unfold pearsonR
    rw [if_neg (by omega : ¬ n < 2)]
    simp only
    rw [if_neg (mul_pos hsAp hsBp).ne']
  · unfold MixtureRHalf.pearson
    rw [sd_guard, sd_guard]
    have e : (∑ i, (x i - mean x) / sd x * ((y i - mean y) / sd y)) =
        (∑ i, (x i - mean x) * (y i - mean y)) / (sd x * sd y) := by
      rw [Finset.sum_div]
      exact Finset.sum_congr rfl fun i _ => div_mul_div_comm _ _ _ _
    rw [e, hsdx, hsdy]
    have hss : Real.sqrt ((n : ℝ) - 1) * Real.sqrt ((n : ℝ) - 1) =
        (n : ℝ) - 1 := Real.mul_self_sqrt hDpos.le
    rw [div_mul_div_comm, hss]
    have hP : Real.sqrt (∑ i, (x i - mean x) ^ 2) *
        Real.sqrt (∑ i, (y i - mean y) ^ 2) ≠ 0 := (mul_pos hsAp hsBp).ne'
    field_simp
    ring

/-- Witness for C10 at `x = (0,1,2)`, `y = (0,1,1)`. -/
theorem c10_witness :
    ∃ ρ, pearsonR (fun i => ((![(0 : ℝ), 1, 2]) i, (![(0 : ℝ), 1, 1]) i)) =
        some ρ ∧
      MixtureRHalf.pearson (![(0 : ℝ), 1, 2]) (![(0 : ℝ), 1, 1]) =
        ((((3 : ℕ) : ℝ) - 1) / ((3 : ℕ) : ℝ)) * ρ :=
  c10_mixture_pearson_ratio (by norm_num) (![(0 : ℝ), 1, 2])
    (![(0 : ℝ), 1, 1])
    (by norm_num [sampleVar, mean, Fin.sum_univ_three])
    (by norm_num [sampleVar, mean, Fin.sum_univ_three])

end

end StatsStudy
